import Mathlib

/-!
Verification of the racing data pipeline against its specification.

The definitions below are a shallow embedding of the Python sources:
standardization.py (the Normalizer), extract_horses.py (phase 1),
extract_past_performance.py (phase 2) and extract_result_charts.py
(phase 3).  Pure functions become Lean functions; the SQLite store is
modelled as explicit list-valued state; fallible parsing returns Option.
-/

namespace Racing

/-! ## String primitives

The Python string methods used by the sources (strip, upper, split and
slicing) are embedded as structurally recursive functions on the character
list of the string, so that every definition evaluates inside the kernel. -/

/-- Python str.strip(): remove leading and trailing whitespace. -/
def pyStrip (s : String) : String :=
  String.mk (((s.data.dropWhile Char.isWhitespace).reverse.dropWhile
    Char.isWhitespace).reverse)

/-- Python str.upper() on the ASCII fields of the feeds. -/
def pyUpper (s : String) : String := String.mk (s.data.map Char.toUpper)

/-- Splitting on a delimiter class, keeping empty pieces, as a list
recursion; cur holds the characters of the current piece reversed. -/
def pySplitAux (p : Char → Bool) : List Char → List Char → List String
  | cur, [] => [String.mk cur.reverse]
  | cur, c :: rest =>
    if p c then String.mk cur.reverse :: pySplitAux p [] rest
    else pySplitAux p (c :: cur) rest

/-- Split a string at every character satisfying p, keeping empty pieces. -/
def pySplit (s : String) (p : Char → Bool) : List String := pySplitAux p [] s.data

/-- Python slice s[:n]. -/
def pyTake (s : String) (n : Nat) : String := String.mk (s.data.take n)

/-- Python slice s[n:]. -/
def pyDrop (s : String) (n : Nat) : String := String.mk (s.data.drop n)

/-! ## Normalizer: standardization.py -/

/-- Course type synonym set for DIRT (standardization.py, dirt_variations). -/
def dirt_variations : List String :=
  ["D", "DIRT", "FAST", "SLOPPY", "MUDDY", "GOOD", "SEALED", "FROZEN"]

/-- Course type synonym set for TURF (standardization.py, turf_variations). -/
def turf_variations : List String :=
  ["T", "TURF", "FIRM", "GOOD TO FIRM", "YIELDING", "SOFT", "HEAVY", "GRASS", "LAWN"]

/-- Course type synonym set for SYNTHETIC (standardization.py, synthetic_variations). -/
def synthetic_variations : List String :=
  ["S", "SYNTH", "SYNTHETIC", "TAPETA", "POLYTRACK", "FIBRESAND", "CUSHION", "PRO-RIDE"]

/-- standardize_course_type (standardization.py lines 78-92).  The Python
guard "if not raw_value or raw_value.strip() == ''" is the none/blank case. -/
def standardize_course_type (raw_value : Option String) : String :=
  match raw_value with
  | none => "UNKNOWN"
  | some s =>
    if pyStrip s = "" then "UNKNOWN"
    else
      let cleaned := pyUpper (pyStrip s)
      if cleaned ∈ dirt_variations then "DIRT"
      else if cleaned ∈ turf_variations then "TURF"
      else if cleaned ∈ synthetic_variations then "SYNTHETIC"
      else "UNKNOWN"

/-- race_type_hierarchy (standardization.py lines 34-49), as an ordered
association list: Python dicts preserve insertion order, and
standardize_race_type iterates the entries in that order. -/
def race_type_hierarchy : List (String × Nat) :=
  [("G1", 10), ("G2", 9), ("G3", 8), ("GR1", 10), ("GR2", 9), ("GR3", 8),
   ("L", 7), ("LR", 7), ("LISTED", 7),
   ("STK", 6), ("STAKES", 6), ("BT", 6),
   ("ALW", 5), ("ALLOWANCE", 5), ("AOC", 5), ("N1X", 4), ("N2X", 3),
   ("CLM", 2), ("CLAIMING", 2), ("CL", 2),
   ("MSW", 1), ("MAIDEN", 1), ("MCL", 1), ("MAIDEN CLAIMING", 1),
   ("MSP", 1), ("MAIDEN SPECIAL WEIGHT", 1)]

/-- _get_purse_category (standardization.py lines 165-178). -/
def get_purse_category (class_level : Nat) : String :=
  if class_level ≥ 8 then "GRADED_STAKES"
  else if class_level ≥ 6 then "STAKES"
  else if class_level ≥ 4 then "ALLOWANCE"
  else if class_level ≥ 2 then "CLAIMING"
  else if class_level = 1 then "MAIDEN"
  else "UNKNOWN"

/-- Substring test on character lists; hasInfix pat s is the Python
membership test "pat in s" for strings. -/
def hasInfix (pat : List Char) : List Char → Bool
  | [] => pat.isEmpty
  | c :: rest => pat.isPrefixOf (c :: rest) || hasInfix pat rest

/-- Python substring containment: pat in s. -/
def strContains (s pat : String) : Bool := hasInfix pat.data s.data

/-- Python str.split() with no argument: split on whitespace runs and drop
empty pieces. -/
def pySplitWs (s : String) : List String :=
  (pySplit s Char.isWhitespace).filter (fun t => t ≠ "")

/-- Result record of standardize_race_type. -/
structure RaceTypeInfo where
  race_type_code : String
  race_type_description : String
  class_level : Nat
  purse_category : String
deriving DecidableEq

/-- standardize_race_type (standardization.py lines 94-163): blank guard,
then the compound maiden-claiming rule, then first exact whole-word match
against race_type_hierarchy in insertion order, then substring keyword
fallbacks, then the OTHER default. -/
def standardize_race_type (raw_value : Option String) : RaceTypeInfo :=
  match raw_value with
  | none => ⟨"UNKNOWN", "Unknown", 0, "UNKNOWN"⟩
  | some s =>
    if pyStrip s = "" then ⟨"UNKNOWN", "Unknown", 0, "UNKNOWN"⟩
    else
      let cleaned := pyUpper (pyStrip s)
      if strContains cleaned "MAIDEN CLAIMING" || strContains cleaned "MAIDEN CLM" then
        ⟨"CLAIMING", pyStrip s, 1, "MAIDEN"⟩
      else
        let words := pySplitWs cleaned
        match race_type_hierarchy.find? (fun p => words.contains p.1) with
        | some p => ⟨p.1, pyStrip s, p.2, get_purse_category p.2⟩
        | none =>
          if strContains cleaned "MAIDEN" || strContains cleaned "MSW" then
            ⟨"MAIDEN", pyStrip s, 1, "MAIDEN"⟩
          else if strContains cleaned "CLAIMING" || strContains cleaned "CLM" then
            ⟨"CLAIMING", pyStrip s, 2, "CLAIMING"⟩
          else if strContains cleaned "ALLOWANCE" || strContains cleaned "ALW" then
            ⟨"ALLOWANCE", pyStrip s, 5, "ALLOWANCE"⟩
          else if strContains cleaned "STAKES" || strContains cleaned "STK" then
            ⟨"STAKES", pyStrip s, 6, "STAKES"⟩
          else
            ⟨"OTHER", pyStrip s, 3, "OTHER"⟩

/-- equipment_mappings (standardization.py lines 52-63), ordered as written. -/
def equipment_mappings : List (String × String) :=
  [("B", "BLINKERS"), ("BLINKERS", "BLINKERS"),
   ("BF", "BLINKERS_FIRST_TIME"), ("BL", "BLINKERS_LASIX"),
   ("L", "LASIX"), ("L1", "LASIX_FIRST_TIME"), ("L2", "LASIX_SECOND_TIME"),
   ("LASIX", "LASIX"), ("SALIX", "LASIX"),
   ("T", "TONGUE_TIE"), ("TT", "TONGUE_TIE"),
   ("N", "NASAL_STRIP"), ("NS", "NASAL_STRIP"),
   ("S", "SHADOW_ROLL"), ("SR", "SHADOW_ROLL"),
   ("E", "EAR_PLUGS"), ("EP", "EAR_PLUGS"),
   ("H", "HOOD"), ("HOOD", "HOOD"),
   ("C", "CHEEK_PIECES"), ("CP", "CHEEK_PIECES")]

/-- Delimiter class of the regex [,;/\s]+ used by standardize_equipment. -/
def isDelim (c : Char) : Bool := c = ',' || c = ';' || c = '/' || c.isWhitespace

/-- The token list produced by re.split over the cleaned equipment string.
Consecutive delimiters produce empty tokens here where the regex plus sign
collapses them; both the source and equipLoop skip empty tokens, so the
surviving tokens agree. -/
def equipTokens (s : String) : List String := pySplit (pyUpper (pyStrip s)) isDelim

/-- The accumulation loop of standardize_equipment (standardization.py
lines 261-268): known tokens are mapped and appended only when not already
present; unknown nonempty tokens are appended verbatim unconditionally. -/
def equipLoop : List String → List String → List String
  | acc, [] => acc
  | acc, item₀ :: rest =>
    let item := pyStrip item₀
    if item = "" then equipLoop acc rest
    else
      match equipment_mappings.lookup item with
      | some std => if std ∈ acc then equipLoop acc rest else equipLoop (acc ++ [std]) rest
      | none => equipLoop (acc ++ [item]) rest

/-- standardize_equipment (standardization.py lines 252-270). -/
def standardize_equipment (equipment_string : Option String) : List String :=
  match equipment_string with
  | none => []
  | some s => if pyStrip s = "" then [] else equipLoop [] (equipTokens s)

/-- track_conditions lookup table (standardization.py lines 66-76). -/
def track_conditions : List (String × String) :=
  [("FAST", "FAST"), ("FT", "FAST"), ("F", "FAST"),
   ("GOOD", "GOOD"), ("GD", "GOOD"), ("G", "GOOD"),
   ("SLOPPY", "SLOPPY"), ("SL", "SLOPPY"), ("SLPY", "SLOPPY"),
   ("MUDDY", "MUDDY"), ("MY", "MUDDY"), ("MD", "MUDDY"),
   ("WF", "WET_FAST"), ("WET FAST", "WET_FAST"),
   ("FIRM", "FIRM"), ("FM", "FIRM"),
   ("YIELDING", "YIELDING"), ("YL", "YIELDING"), ("Y", "YIELDING"),
   ("SOFT", "SOFT"), ("SF", "SOFT"),
   ("HEAVY", "HEAVY"), ("HV", "HEAVY")]

/-- standardize_track_condition (standardization.py lines 289-296). -/
def standardize_track_condition (raw_value : Option String) : String :=
  match raw_value with
  | none => "UNKNOWN"
  | some s =>
    if pyStrip s = "" then "UNKNOWN"
    else ((track_conditions.lookup (pyUpper (pyStrip s))).getD "OTHER")

/-- Value of a digit string (used by the numeric parsing models below). -/
def digitsToNat (ds : List Char) : Nat :=
  ds.foldl (fun n c => 10 * n + (c.toNat - Char.toNat '0')) 0

/-- First maximal run of digits in a string, as re.search of one-or-more
digits finds it (parse_weight, standardization.py lines 272-287). -/
def firstDigitRun : List Char → Option (List Char)
  | [] => none
  | c :: rest =>
    if c.isDigit then some (c :: rest.takeWhile Char.isDigit)
    else firstDigitRun rest

/-- parse_weight (standardization.py lines 272-287): extract the first run
of digits, none when no digit occurs (or the input is absent). -/
def parse_weight (weight_value : Option String) : Option Int :=
  match weight_value with
  | none => none
  | some s =>
    match firstDigitRun (pyStrip s).data with
    | some ds => some (digitsToNat ds : Int)
    | none => none

/-- Model of the Python float() conversion applied to a stripped string:
optional sign, an integer digit string, optionally a decimal point and a
fractional digit string, with at least one digit overall.  Exponent and
inf/nan spellings accepted by float() do not occur in the racing feeds and
are outside the claims. -/
def parseRat (s : String) : Option ℚ :=
  let cs := s.data
  let signed : Bool × List Char :=
    match cs with
    | '-' :: t => (true, t)
    | '+' :: t => (false, t)
    | _ => (false, cs)
  let intPart := signed.2.takeWhile Char.isDigit
  let rest := signed.2.dropWhile Char.isDigit
  let body : Option ℚ :=
    match rest with
    | [] => if intPart.isEmpty then none else some (digitsToNat intPart : ℚ)
    | '.' :: frac =>
      if frac.all Char.isDigit && (!intPart.isEmpty || !frac.isEmpty) then
        some ((digitsToNat intPart : ℚ) + (digitsToNat frac : ℚ) / (10 : ℚ) ^ frac.length)
      else none
    | _ => none
  body.map (fun q => if signed.1 then -q else q)

/-- The Python int() conversion on a float value: truncation toward zero. -/
def pyInt (q : ℚ) : Int := if q < 0 then -⌊-q⌋ else ⌊q⌋

/-- Numeric core of parse_distance (standardization.py lines 311-360):
unit inference from magnitude when the unit is absent or blank, then the
per-unit hundredths-encoding branches, each truncated with int(). -/
def parse_distance_q (distance : ℚ) (unit : Option String) : Int :=
  let inferred : String :=
    if distance < 20 then "F" else if distance > 1000 then "Y" else "M"
  let u : String :=
    match unit with
    | none => inferred
    | some us => if us = "" then inferred else pyUpper us
  if u = "F" ∨ u = "FURLONG" ∨ u = "FURLONGS" then
    if distance ≥ 100 then pyInt (distance / 100 * 220) else pyInt (distance * 220)
  else if u = "M" ∨ u = "MILE" ∨ u = "MILES" then
    if distance ≥ 100 then pyInt (distance / 1600 * 1760) else pyInt (distance * 1760)
  else if u = "Y" ∨ u = "YARD" ∨ u = "YARDS" then
    pyInt distance
  else
    if distance < 20 then pyInt (distance * 220)
    else if 100 ≤ distance ∧ distance ≤ 1000 then pyInt (distance / 100 * 220)
    else if distance > 1000 then
      (if distance > 5000 then pyInt (distance / 3) else pyInt distance)
    else pyInt (distance * 220)

/-- parse_distance (standardization.py lines 298-363): the falsy guard on
the raw value, float() on the stripped string (none on failure, the except
branch), then the numeric conversion. -/
def parse_distance (distance_value : Option String) (unit : Option String) : Option Int :=
  match distance_value with
  | none => none
  | some s =>
    if s = "" then none
    else
      match parseRat (pyStrip s) with
      | none => none
      | some distance => some (parse_distance_q distance unit)

/-- Result record of create_standardized_horse_features. -/
structure HorseFeatures where
  equipment_codes : List String
  has_blinkers : Bool
  has_lasix : Bool
  has_tongue_tie : Bool
  has_nasal_strip : Bool
  weight_lbs : Option Int
  medication_codes : List String
deriving DecidableEq

/-- create_standardized_horse_features (standardization.py lines 403-425).
The source sets has_lasix twice: first from the common-equipment loop and
then overwritten by the medication-aware test on line 423; the final value
is the one embedded here. -/
def create_standardized_horse_features
    (equipment medication weight : Option String) : HorseFeatures :=
  let equipment_list := standardize_equipment equipment
  let medication_list := standardize_equipment medication
  { equipment_codes := equipment_list
    has_blinkers := decide ("BLINKERS" ∈ equipment_list)
    has_lasix := decide ("LASIX" ∈ medication_list ∨ "LASIX" ∈ equipment_list)
    has_tongue_tie := decide ("TONGUE_TIE" ∈ equipment_list)
    has_nasal_strip := decide ("NASAL_STRIP" ∈ equipment_list)
    weight_lbs := parse_weight weight
    medication_codes := medication_list }

/-! ## Natural keys: extract_past_performance.py and extract_result_charts.py -/

/-- Race natural key as computed in phase 2
(extract_past_performance.py line 101). -/
def pp_race_id (track_code race_date race_number : String) : String :=
  track_code ++ "_" ++ race_date ++ "_" ++ race_number

/-- Race natural key as computed in phase 3
(extract_result_charts.py line 115). -/
def rc_race_id (track_code race_date race_number : String) : String :=
  track_code ++ "_" ++ race_date ++ "_" ++ race_number

/-- Phase-2 conversion of the YYYYMMDD filename date to YYYY-MM-DD
(extract_past_performance.py line 266). -/
def pp_format_race_date (date_str : String) : String :=
  pyTake date_str 4 ++ "-" ++ pyTake (pyDrop date_str 4) 2 ++ "-" ++ pyTake (pyDrop date_str 6) 2

/-! ## Phase-1 storage model: extract_horses.py

The SQLite tables are modelled as lists of rows in insertion order; INSERT
OR IGNORE inserts a row only when no row with the same natural key is
present.  A phase run concatenates the records extracted from the document
set, filters them through the per-run seen-keys ledger (seen_horses and
friends, process_xml_content lines 201-221), and folds the batch into the
store (batch_insert_data lines 269-333). -/

variable {α : Type}

/-- Whether the store already holds a row with the given key. -/
def hasKey (key : α → String) (store : List α) (k : String) : Bool :=
  store.any (fun x => key x == k)

/-- INSERT OR IGNORE of one row keyed by its natural key. -/
def insertOrIgnore (key : α → String) (store : List α) (r : α) : List α :=
  if hasKey key store (key r) then store else store ++ [r]

/-- The per-run dedup ledger: keep the first record for each key, in
extraction order, as the seen-dictionary check does. -/
def ledgerDedup (key : α → String) : List α → List String → List α
  | [], _ => []
  | r :: rs, seen =>
    if seen.contains (key r) then ledgerDedup key rs seen
    else r :: ledgerDedup key rs (key r :: seen)

/-- One phase-1 run over a document set: extracted records pass the ledger
and the surviving batch is written with INSERT OR IGNORE. -/
def runPhase (key : α → String) (recs : List α) (store : List α) : List α :=
  (ledgerDedup key recs []).foldl (insertOrIgnore key) store

/-- A horses_master row, restricted to the fields the claims touch
(extract_horses.py extract_horse_data; year_of_birth may be NULL). -/
structure HorseMasterRow where
  registration_number : String
  horse_name : String
  year_of_birth : Option Int
deriving DecidableEq

/-- A trainers or owners row (extract_horses.py extract_trainer_data and
extract_owner_data), keyed by external_party_id. -/
structure PartyRow where
  external_party_id : String
  last_name : Option String
deriving DecidableEq

/-! ## Phase-3 name lookup: extract_result_charts.py -/

/-- Strict year_of_birth comparison under the SQLite ordering used by
ORDER BY year_of_birth DESC: NULL sorts below every integer. -/
def yobGT : Option Int → Option Int → Bool
  | some a, some b => b < a
  | some _, none => true
  | none, _ => false

/-- First row attaining the maximal year_of_birth among h :: t. -/
def maxYobRow (h : HorseMasterRow) (t : List HorseMasterRow) : HorseMasterRow :=
  t.foldl (fun best r => if yobGT r.year_of_birth best.year_of_birth then r else best) h

/-- lookup_registration_number (extract_result_charts.py lines 302-322):
SELECT registration_number FROM horses_master WHERE horse_name = ?
ORDER BY year_of_birth DESC LIMIT 1.  The single fetched row is modelled
as a row with maximal year_of_birth among the name matches; SQLite leaves
the order of ties unspecified and the spec asks only for maximality. -/
def lookup_registration_number (db : List HorseMasterRow) (horse_name : String) :
    Option String :=
  match db.filter (fun r => r.horse_name == horse_name) with
  | [] => none
  | h :: t => some (maxYobRow h t).registration_number

/-! ## Batch flush transaction model: batch_insert_data

batch_insert_data (extract_horses.py lines 269-333) issues all horse,
trainer and owner writes of a flush inside one SQLite transaction and
commits once at the end; any exception reaches the single except branch,
which rolls the transaction back.  The transaction is modelled by running
the writes on a working copy of the store: the working copy becomes the
new committed state only when every write succeeded, and is discarded
(leaving the committed state untouched) when any write fails.  Which
writes fail is a parameter of the model. -/

/-- The three tables written by a phase-1 flush. -/
structure TripleStore (α β γ : Type) where
  horses : List α
  trainers : List β
  owners : List γ
deriving DecidableEq

/-- One row write of a flush, tagged with its target table. -/
inductive WriteOp (α β γ : Type) where
  | horse (r : α)
  | trainer (r : β)
  | owner (r : γ)
deriving DecidableEq

/-- Effect of one successful INSERT OR IGNORE write on the working state. -/
def applyOp {α β γ : Type} (kh : α → String) (kt : β → String) (ko : γ → String)
    (db : TripleStore α β γ) : WriteOp α β γ → TripleStore α β γ
  | .horse r => { db with horses := insertOrIgnore kh db.horses r }
  | .trainer r => { db with trainers := insertOrIgnore kt db.trainers r }
  | .owner r => { db with owners := insertOrIgnore ko db.owners r }

/-- The write sequence of one flush, in source order: all horse rows, then
all trainer rows, then all owner rows. -/
def flushWrites {α β γ : Type} (hb : List α) (tb : List β) (ob : List γ) :
    List (WriteOp α β γ) :=
  hb.map WriteOp.horse ++ tb.map WriteOp.trainer ++ ob.map WriteOp.owner

/-- Run the writes of a transaction on the working state; none when some
write raises. -/
def runWrites {α β γ : Type} (fails : WriteOp α β γ → Bool)
    (kh : α → String) (kt : β → String) (ko : γ → String) :
    TripleStore α β γ → List (WriteOp α β γ) → Option (TripleStore α β γ)
  | db, [] => some db
  | db, op :: ops =>
    if fails op then none else runWrites fails kh kt ko (applyOp kh kt ko db op) ops

/-- batch_insert_data (extract_horses.py lines 269-333): commit the working
state when every write succeeded, otherwise roll back to the committed
state; the Bool reports whether the flush succeeded. -/
def batch_insert_data {α β γ : Type} (fails : WriteOp α β γ → Bool)
    (kh : α → String) (kt : β → String) (ko : γ → String)
    (db : TripleStore α β γ) (hb : List α) (tb : List β) (ob : List γ) :
    TripleStore α β γ × Bool :=
  match runWrites fails kh kt ko db (flushWrites hb tb ob) with
  | some db' => (db', true)
  | none => (db, false)

/-! ## Theorems -/

/-- Evaluation of the furlong branch of parse_distance_q at an explicit
unit string. -/
theorem parse_distance_q_F (v : ℚ) :
    parse_distance_q v (some "F") =
      if v ≥ 100 then pyInt (v / 100 * 220) else pyInt (v * 220) := rfl

/-- Evaluation of the int() truncation at a nonnegative value with known
integer bounds. -/
theorem pyInt_eval (q : ℚ) (z : ℤ) (h1 : 0 ≤ q) (h2 : ↑z ≤ q) (h3 : q < z + 1) :
    pyInt q = z := by
  unfold pyInt
  rw [if_neg (not_lt.mpr h1), Int.floor_eq_iff]
  exact ⟨h2, h3⟩

/-- Claim C1, as stated, fails at the furlong input 103: the code
truncates 103/100 times 220 = 226.6 to 226, while rounding gives 227. -/
theorem claim1_counterexample :
    parse_distance (some "103") (some "F") = some 226 ∧
    round ((103 : ℚ) / 100 * 220) = 227 ∧
    parse_distance (some "103") (some "F") ≠
      some (round ((103 : ℚ) / 100 * 220)) := by
  have h1 : parse_distance (some "103") (some "F") =
      some (pyInt (((103 : ℕ) : ℚ) / 100 * 220)) := rfl
  have h2 : pyInt (((103 : ℕ) : ℚ) / 100 * 220) = 226 :=
    pyInt_eval _ 226 (by norm_num) (by norm_num) (by norm_num)
  have h3 : round ((103 : ℚ) / 100 * 220) = 227 := by
    rw [round_eq, show ((103 : ℚ) / 100 * 220 + 1 / 2) = 2271 / 10 by norm_num,
      Int.floor_eq_iff]
    norm_num
  refine ⟨by rw [h1, h2], h3, ?_⟩
  rw [h1, h2, h3]
  decide

/-- Claim C1 (amended): for every furlong input v at least 100 in
hundredths encoding the result is the truncation of v/100 times 220, not
the rounding; the two quoted examples hold as stated. -/
theorem claim1_truncation (v : ℚ) (h : 100 ≤ v) :
    parse_distance_q v (some "F") = ⌊v / 100 * 220⌋ ∧
    parse_distance (some "600") (some "F") = some 1320 ∧
    parse_distance (some "550") (some "F") = some 1210 := by
  refine ⟨?_, ?_, ?_⟩
  · rw [parse_distance_q_F, if_pos h]
    unfold pyInt
    have hv : (0 : ℚ) ≤ v := le_trans (by norm_num) h
    have h0 : (0 : ℚ) ≤ v / 100 * 220 :=
      mul_nonneg (div_nonneg hv (by norm_num)) (by norm_num)
    rw [if_neg (not_lt.mpr h0)]
  · have e : parse_distance (some "600") (some "F") =
        some (pyInt (((600 : ℕ) : ℚ) / 100 * 220)) := rfl
    rw [e, pyInt_eval _ 1320 (by norm_num) (by norm_num) (by norm_num)]
  · have e : parse_distance (some "550") (some "F") =
        some (pyInt (((550 : ℕ) : ℚ) / 100 * 220)) := rfl
    rw [e, pyInt_eval _ 1210 (by norm_num) (by norm_num) (by norm_num)]

/-- Witness for claim C1 at the concrete input 600. -/
theorem claim1_truncation_witness :
    (100 : ℚ) ≤ 600 ∧
    (parse_distance_q 600 (some "F") = ⌊(600 : ℚ) / 100 * 220⌋ ∧
     parse_distance (some "600") (some "F") = some 1320 ∧
     parse_distance (some "550") (some "F") = some 1210) :=
  ⟨by norm_num, claim1_truncation 600 (by norm_num)⟩

/-- Claim C2: the race natural key computed by phase 2 and the one
computed by phase 3 are the identical string trackCode_raceDate_raceNumber
whenever the components agree, so a phase-3 update resolves to the exact
key phase 2 created; the phase-2 date component is the YYYY-MM-DD form of
the YYYYMMDD filename date. -/
theorem claim2_race_key (t d n : String) :
    pp_race_id t d n = rc_race_id t d n ∧
    pp_race_id t d n = t ++ "_" ++ d ++ "_" ++ n ∧
    rc_race_id t (pp_format_race_date "20230101") n = pp_race_id t "2023-01-01" n := by
  refine ⟨rfl, rfl, ?_⟩
  have hd : pp_format_race_date "20230101" = "2023-01-01" := by decide
  rw [hd]
  rfl

/-- Claim C7: any input whose cleaned form contains the compound phrase is
classified by the compound maiden-claiming rule: class_level 1 with
race_type_code CLAIMING, not plain MAIDEN. -/
theorem claim7_compound_wins (s : String)
    (h : strContains (pyUpper (pyStrip s)) "MAIDEN CLAIMING" = true) :
    (standardize_race_type (some s)).class_level = 1 ∧
    (standardize_race_type (some s)).race_type_code = "CLAIMING" ∧
    (standardize_race_type (some s)).race_type_code ≠ "MAIDEN" := by
  have htrim : ¬ pyStrip s = "" := by
    intro he
    rw [he] at h
    exact absurd h (by decide)
  have hor : (strContains (pyUpper (pyStrip s)) "MAIDEN CLAIMING" ||
      strContains (pyUpper (pyStrip s)) "MAIDEN CLM") = true := by
    rw [h]; rfl
  simp only [standardize_race_type]
  rw [if_neg htrim, if_pos hor]
  have hne : ("CLAIMING" : String) ≠ "MAIDEN" := by decide
  exact ⟨rfl, rfl, fun hcon => hne hcon⟩

/-- Witness for claim C7 at the concrete input MAIDEN CLAIMING. -/
theorem claim7_witness :
    strContains (pyUpper (pyStrip "MAIDEN CLAIMING")) "MAIDEN CLAIMING" = true ∧
    ((standardize_race_type (some "MAIDEN CLAIMING")).class_level = 1 ∧
     (standardize_race_type (some "MAIDEN CLAIMING")).race_type_code = "CLAIMING" ∧
     (standardize_race_type (some "MAIDEN CLAIMING")).race_type_code ≠ "MAIDEN") :=
  ⟨by decide, claim7_compound_wins "MAIDEN CLAIMING" (by decide)⟩

/-- Claim C6 counterexample: the default branch returns class_level 3 with
purse_category OTHER, while the threshold function at 3 gives CLAIMING, so
the claimed identity fails on inputs like FOO that reach the default. -/
theorem claim6_counterexample :
    (standardize_race_type (some "FOO")).class_level = 3 ∧
    get_purse_category (standardize_race_type (some "FOO")).class_level = "CLAIMING" ∧
    (standardize_race_type (some "FOO")).purse_category = "OTHER" ∧
    (standardize_race_type (some "FOO")).purse_category ≠
      get_purse_category (standardize_race_type (some "FOO")).class_level := by
  refine ⟨by decide, by decide, by decide, by decide⟩

/-- Claim C6 (amended): on every branch except the default the returned
purse_category is the fixed threshold function of the returned
class_level; the default branch returns race_type_code OTHER with
class_level 3 and purse_category OTHER. -/
theorem claim6_threshold (raw : Option String) :
    (standardize_race_type raw).purse_category =
      get_purse_category (standardize_race_type raw).class_level ∨
    ((standardize_race_type raw).race_type_code = "OTHER" ∧
     (standardize_race_type raw).class_level = 3 ∧
     (standardize_race_type raw).purse_category = "OTHER") := by
  cases raw with
  | none => left; rfl
  | some s =>
    simp only [standardize_race_type]
    rcases hf : race_type_hierarchy.find?
        (fun p => (pySplitWs (pyUpper (pyStrip s))).contains p.1) with _ | p
    · simp only [hf]
      split_ifs <;> first | (left; rfl) | (right; exact ⟨rfl, rfl, rfl⟩)
    · simp only [hf]
      split_ifs <;> left <;> rfl

/-- Claim C8 counterexample: the horse feature record built from the
equipment string B,L1,T alone has has_lasix false, because L1 maps to
LASIX_FIRST_TIME and the flag tests for the exact token LASIX. -/
theorem claim8_counterexample :
    (create_standardized_horse_features (some "B,L1,T") none none).has_lasix = false := by
  decide

/-- Claim C8 (amended): B,L1,T standardizes to exactly BLINKERS,
LASIX_FIRST_TIME, TONGUE_TIE and gives has_blinkers true; has_lasix is
false from the equipment string alone and becomes true only when the
medication field carries LASIX, as in the repository scenario. -/
theorem claim8_equipment :
    standardize_equipment (some "B,L1,T") =
      ["BLINKERS", "LASIX_FIRST_TIME", "TONGUE_TIE"] ∧
    (create_standardized_horse_features (some "B,L1,T") none none).has_blinkers = true ∧
    (create_standardized_horse_features (some "B,L1,T") none none).has_lasix = false ∧
    (create_standardized_horse_features (some "B,L1,T") (some "LASIX") none).has_lasix
      = true := by
  refine ⟨by decide, by decide, by decide, by decide⟩

/-- Claim C9 counterexample: unknown tokens are appended verbatim without
the membership check, so the output can repeat a token. -/
theorem claim9_counterexample :
    standardize_equipment (some "ZZ ZZ") = ["ZZ", "ZZ"] ∧
    ¬ (standardize_equipment (some "ZZ ZZ")).Nodup := by
  refine ⟨by decide, by decide⟩

/-- The accumulation loop keeps its output duplicate-free as long as every
nonempty token is in the code table, since mapped tokens are appended only
after the membership check. -/
theorem equipLoop_nodup : ∀ (items acc : List String), acc.Nodup →
    (∀ t ∈ items, pyStrip t = "" ∨
      (equipment_mappings.lookup (pyStrip t)).isSome = true) →
    (equipLoop acc items).Nodup := by
  intro items
  induction items with
  | nil => intro acc hacc _; exact hacc
  | cons it rest ih =>
    intro acc hacc hall
    have hrest : ∀ t ∈ rest, pyStrip t = "" ∨
        (equipment_mappings.lookup (pyStrip t)).isSome = true :=
      fun t ht => hall t (List.mem_cons_of_mem it ht)
    rcases hall it (List.mem_cons_self it rest) with he | hk
    · simp only [equipLoop]
      rw [if_pos he]
      exact ih acc hacc hrest
    · rcases hlk : equipment_mappings.lookup (pyStrip it) with _ | std
      · rw [hlk] at hk
        exact absurd hk (by decide)
      · have hne : pyStrip it ≠ "" := by
          intro h0
          rw [h0, show equipment_mappings.lookup ("" : String) = none from rfl] at hlk
          exact Option.noConfusion hlk
        simp only [equipLoop, if_neg hne, hlk]
        by_cases hmem : std ∈ acc
        · rw [if_pos hmem]
          exact ih acc hacc hrest
        · rw [if_neg hmem]
          apply ih
          · refine List.Nodup.append hacc (List.nodup_singleton std) ?_
            intro x hx hxs
            rw [List.mem_singleton] at hxs
            exact hmem (hxs ▸ hx)
          · exact hrest

/-- Claim C9 (amended): splitting, mapping and first-seen order are as
claimed, but only recognized tokens are de-duplicated; when every token of
the input is empty or in the code table, the output has no duplicates. -/
theorem claim9_known_nodup (s : String)
    (h : ∀ t ∈ equipTokens s, pyStrip t = "" ∨
      (equipment_mappings.lookup (pyStrip t)).isSome = true) :
    (standardize_equipment (some s)).Nodup := by
  simp only [standardize_equipment]
  split_ifs with h1
  · exact List.nodup_nil
  · exact equipLoop_nodup (equipTokens s) [] List.nodup_nil h

/-- Witness for claim C9 at the concrete input B,B,L. -/
theorem claim9_witness :
    (∀ t ∈ equipTokens "B,B,L", pyStrip t = "" ∨
      (equipment_mappings.lookup (pyStrip t)).isSome = true) ∧
    (standardize_equipment (some "B,B,L")).Nodup :=
  ⟨by decide, claim9_known_nodup "B,B,L" (by decide)⟩

/-- A successful association-list lookup returns one of the stored values. -/
theorem lookup_mem_snd : ∀ {l : List (String × String)} {k v : String},
    l.lookup k = some v → v ∈ l.map Prod.snd := by
  intro l
  induction l with
  | nil => intro k v h; exact absurd h (by simp)
  | cons p t ih =>
    intro k v h
    rcases p with ⟨a, b⟩
    rw [List.lookup_cons] at h
    by_cases hk : (k == a) = true
    · rw [hk] at h
      dsimp only at h
      rw [List.map_cons]
      exact (Option.some.inj h) ▸ List.mem_cons_self _ _
    · have hk' : (k == a) = false := by
        cases hkk : (k == a)
        · rfl
        · exact absurd hkk hk
      rw [hk'] at h
      dsimp only at h
      rw [List.map_cons]
      exact List.mem_cons_of_mem b (ih h)

/-- Claim C5: the Normalizer functions are total and send malformed input
to sentinels: parse_distance yields none exactly on absent, empty or
non-numeric input and a value otherwise (it is a total function, so it
never raises), and the categorical normalizers always land in their fixed
sentinel-closed codomains. -/
theorem claim5_totality (u : Option String) (s : String) (raw : Option String) :
    parse_distance none u = none ∧
    (parse_distance (some s) u = none ↔ s = "" ∨ parseRat (pyStrip s) = none) ∧
    standardize_course_type raw ∈ ["DIRT", "TURF", "SYNTHETIC", "UNKNOWN"] ∧
    standardize_track_condition raw ∈
      ["UNKNOWN", "OTHER", "FAST", "GOOD", "SLOPPY", "MUDDY", "WET_FAST",
       "FIRM", "YIELDING", "SOFT", "HEAVY"] := by
  refine ⟨rfl, ?_, ?_, ?_⟩
  · constructor
    · intro h
      by_cases hs : s = ""
      · exact Or.inl hs
      · right
        rcases hp : parseRat (pyStrip s) with _ | d
        · rfl
        · exfalso
          simp only [parse_distance] at h
          rw [if_neg hs, hp] at h
          exact Option.noConfusion h
    · rintro (hs | hp)
      · subst hs; rfl
      · simp only [parse_distance]
        by_cases hs : s = ""
        · rw [if_pos hs]
        · rw [if_neg hs, hp]
  · cases raw with
    | none => simp [standardize_course_type]
    | some s' =>
      simp only [standardize_course_type]
      split_ifs <;> simp
  · cases raw with
    | none => simp [standardize_track_condition]
    | some s' =>
      simp only [standardize_track_condition]
      split_ifs with h1
      · simp
      · rcases hl : track_conditions.lookup (pyUpper (pyStrip s')) with _ | v
        · simp
        · have hv : v ∈ track_conditions.map Prod.snd := lookup_mem_snd hl
          have hsub : ∀ x ∈ track_conditions.map Prod.snd,
              x ∈ ["UNKNOWN", "OTHER", "FAST", "GOOD", "SLOPPY", "MUDDY",
                "WET_FAST", "FIRM", "YIELDING", "SOFT", "HEAVY"] := by decide
          simpa using hsub v hv

/-- Inserting a row makes its key present. -/
theorem hasKey_insertOrIgnore_self (key : α → String) (s : List α) (r : α) :
    hasKey key (insertOrIgnore key s r) (key r) = true := by
  unfold insertOrIgnore
  split_ifs with h
  · exact h
  · simp [hasKey, List.any_append]

/-- Insertion preserves key presence. -/
theorem hasKey_insertOrIgnore_mono (key : α → String) (s : List α) (r : α) (k : String)
    (h : hasKey key s k = true) : hasKey key (insertOrIgnore key s r) k = true := by
  unfold insertOrIgnore
  split_ifs
  · exact h
  · simp only [hasKey, List.any_append] at h ⊢
    rw [h, Bool.true_or]

/-- A whole batch fold preserves key presence. -/
theorem foldl_hasKey_mono (key : α → String) : ∀ (l : List α) (s : List α) (k : String),
    hasKey key s k = true → hasKey key (l.foldl (insertOrIgnore key) s) k = true := by
  intro l
  induction l with
  | nil => intro s k h; exact h
  | cons x t ih =>
    intro s k h
    rw [List.foldl_cons]
    exact ih _ k (hasKey_insertOrIgnore_mono key s x k h)

/-- After folding a batch into the store, every batch key is present. -/
theorem foldl_hasKey_of_mem (key : α → String) : ∀ (l : List α) (s : List α) (r : α),
    r ∈ l → hasKey key (l.foldl (insertOrIgnore key) s) (key r) = true := by
  intro l
  induction l with
  | nil => intro s r hr; exact absurd hr (List.not_mem_nil r)
  | cons x t ih =>
    intro s r hr
    rw [List.foldl_cons]
    rcases List.mem_cons.mp hr with h1 | h1
    · subst h1
      exact foldl_hasKey_mono key t _ _ (hasKey_insertOrIgnore_self key s r)
    · exact ih _ r h1

/-- Folding a batch whose keys are all present is the identity. -/
theorem foldl_insertOrIgnore_id (key : α → String) : ∀ (l : List α) (s : List α),
    (∀ r ∈ l, hasKey key s (key r) = true) → l.foldl (insertOrIgnore key) s = s := by
  intro l
  induction l with
  | nil => intro s _; rfl
  | cons x t ih =>
    intro s hall
    rw [List.foldl_cons]
    have hx := hall x (List.mem_cons_self x t)
    rw [insertOrIgnore, if_pos hx]
    exact ih s (fun r hr => hall r (List.mem_cons_of_mem x hr))

/-- A second identical run changes nothing: the ledger of the second run
produces the same batch and every one of its keys is already stored. -/
theorem runPhase_idem (key : α → String) (recs store : List α) :
    runPhase key recs (runPhase key recs store) = runPhase key recs store := by
  unfold runPhase
  exact foldl_insertOrIgnore_id key _ _
    (fun r hr => foldl_hasKey_of_mem key _ store r hr)

/-- Claim C3: for every document set (the extracted record lists) and every
initial store state, running phase-1 entity extraction twice yields the
same stored horses, trainers and owners as running it once, hence the same
row counts. -/
theorem claim3_idempotence (horses : List HorseMasterRow) (trainers owners : List PartyRow)
    (sh : List HorseMasterRow) (st so : List PartyRow) :
    runPhase HorseMasterRow.registration_number horses
        (runPhase HorseMasterRow.registration_number horses sh) =
      runPhase HorseMasterRow.registration_number horses sh ∧
    runPhase PartyRow.external_party_id trainers
        (runPhase PartyRow.external_party_id trainers st) =
      runPhase PartyRow.external_party_id trainers st ∧
    runPhase PartyRow.external_party_id owners
        (runPhase PartyRow.external_party_id owners so) =
      runPhase PartyRow.external_party_id owners so ∧
    (runPhase HorseMasterRow.registration_number horses
        (runPhase HorseMasterRow.registration_number horses sh)).length =
      (runPhase HorseMasterRow.registration_number horses sh).length :=
  ⟨runPhase_idem _ horses sh, runPhase_idem _ trainers st, runPhase_idem _ owners so,
    by rw [runPhase_idem]⟩

/-- The strict year comparison is irreflexive. -/
theorem yobGT_irrefl (a : Option Int) : yobGT a a = false := by
  cases a <;> simp [yobGT]

/-- The strict year comparison is asymmetric. -/
theorem yobGT_asymm {a b : Option Int} (h : yobGT a b = true) : yobGT b a = false := by
  cases a <;> cases b <;> (simp_all [yobGT]; try omega)

/-- Non-strict chains compose: when a is not above b and b is not above c,
a is not above c. -/
theorem yobGT_false_trans {a b c : Option Int} (hab : yobGT a b = false)
    (hbc : yobGT b c = false) : yobGT a c = false := by
  cases a <;> cases b <;> cases c <;> (simp_all [yobGT]; try omega)

/-- The selected row is one of the candidates. -/
theorem maxYobRow_mem : ∀ (t : List HorseMasterRow) (h : HorseMasterRow),
    maxYobRow h t ∈ h :: t := by
  intro t
  induction t with
  | nil => intro h; exact List.mem_singleton.mpr rfl
  | cons r rs ih =>
    intro h
    simp only [maxYobRow, List.foldl_cons]
    by_cases hif : yobGT r.year_of_birth h.year_of_birth = true
    · rw [if_pos hif]
      show maxYobRow r rs ∈ h :: r :: rs
      exact List.mem_cons_of_mem h (ih r)
    · rw [if_neg hif]
      show maxYobRow h rs ∈ h :: r :: rs
      rcases List.mem_cons.mp (ih h) with h1 | h1
      · rw [h1]
        exact List.mem_cons_self h (r :: rs)
      · exact List.mem_cons_of_mem h (List.mem_cons_of_mem r h1)

/-- No candidate has a strictly greater year_of_birth than the selected
row. -/
theorem maxYobRow_ge : ∀ (t : List HorseMasterRow) (h x : HorseMasterRow),
    x ∈ h :: t → yobGT x.year_of_birth (maxYobRow h t).year_of_birth = false := by
  intro t
  induction t with
  | nil =>
    intro h x hx
    rw [List.mem_singleton] at hx
    rw [hx]
    exact yobGT_irrefl _
  | cons r rs ih =>
    intro h x hx
    simp only [maxYobRow, List.foldl_cons]
    by_cases hif : yobGT r.year_of_birth h.year_of_birth = true
    · rw [if_pos hif]
      show yobGT x.year_of_birth (maxYobRow r rs).year_of_birth = false
      rcases List.mem_cons.mp hx with h1 | h1
      · rw [h1]
        exact yobGT_false_trans (yobGT_asymm hif) (ih r r (List.mem_cons_self r rs))
      · exact ih r x h1
    · have hif2 : yobGT r.year_of_birth h.year_of_birth = false := by
        cases hb : yobGT r.year_of_birth h.year_of_birth
        · rfl
        · exact absurd hb hif
      rw [if_neg hif]
      show yobGT x.year_of_birth (maxYobRow h rs).year_of_birth = false
      rcases List.mem_cons.mp hx with h1 | h1
      · rw [h1]
        exact ih h h (List.mem_cons_self h rs)
      · rcases List.mem_cons.mp h1 with h2 | h2
        · rw [h2]
          exact yobGT_false_trans hif2 (ih h h (List.mem_cons_self h rs))
        · exact ih h x (List.mem_cons_of_mem h h2)

/-- Claim C10: the phase-3 name lookup returns none exactly when no
persisted horse carries the queried display name, and a returned
registration number belongs to a persisted horse with that name whose
year_of_birth is not exceeded by any other horse with the same name. -/
theorem claim10_name_lookup (db : List HorseMasterRow) (name : String) :
    (lookup_registration_number db name = none ↔ ∀ r ∈ db, r.horse_name ≠ name) ∧
    (∀ reg, lookup_registration_number db name = some reg →
      ∃ r ∈ db, r.horse_name = name ∧ r.registration_number = reg ∧
        ∀ r' ∈ db, r'.horse_name = name →
          yobGT r'.year_of_birth r.year_of_birth = false) := by
  constructor
  · constructor
    · intro hnone r hr hname
      have hmem : r ∈ db.filter (fun q => q.horse_name == name) :=
        List.mem_filter.mpr ⟨hr, by simp [hname]⟩
      rcases hf : db.filter (fun q => q.horse_name == name) with _ | ⟨h, t⟩
      · rw [hf] at hmem
        exact absurd hmem (List.not_mem_nil r)
      · unfold lookup_registration_number at hnone
        rw [hf] at hnone
        exact Option.noConfusion hnone
    · intro hall
      unfold lookup_registration_number
      rcases hf : db.filter (fun q => q.horse_name == name) with _ | ⟨h, t⟩
      · rw [hf]
      · exfalso
        have hh : h ∈ db.filter (fun q => q.horse_name == name) :=
          hf ▸ List.mem_cons_self h t
        have hhp := List.mem_filter.mp hh
        exact hall h hhp.1 (by simpa using hhp.2)
  · intro reg hreg
    unfold lookup_registration_number at hreg
    rcases hf : db.filter (fun q => q.horse_name == name) with _ | ⟨h, t⟩
    · rw [hf] at hreg
      exact Option.noConfusion hreg
    · rw [hf] at hreg
      have hmax := maxYobRow_mem t h
      have hmem : maxYobRow h t ∈ db.filter (fun q => q.horse_name == name) :=
        hf ▸ hmax
      have hfp := List.mem_filter.mp hmem
      refine ⟨maxYobRow h t, hfp.1, by simpa using hfp.2, Option.some.inj hreg, ?_⟩
      intro r' hr' hname
      have hrf : r' ∈ db.filter (fun q => q.horse_name == name) :=
        List.mem_filter.mpr ⟨hr', by simp [hname]⟩
      rw [hf] at hrf
      exact maxYobRow_ge t h r' hrf

/-- Witness for claim C10 on a two-horse store sharing the name STAR. -/
theorem claim10_witness :
    lookup_registration_number
      [⟨"R1", "STAR", some 2019⟩, ⟨"R2", "STAR", some 2021⟩] "STAR" = some "R2" ∧
    (∃ r ∈ [(⟨"R1", "STAR", some 2019⟩ : HorseMasterRow), ⟨"R2", "STAR", some 2021⟩],
      r.horse_name = "STAR" ∧ r.registration_number = "R2" ∧
      ∀ r' ∈ [(⟨"R1", "STAR", some 2019⟩ : HorseMasterRow), ⟨"R2", "STAR", some 2021⟩],
        r'.horse_name = "STAR" → yobGT r'.year_of_birth r.year_of_birth = false) :=
  ⟨by decide,
    (claim10_name_lookup
        [⟨"R1", "STAR", some 2019⟩, ⟨"R2", "STAR", some 2021⟩] "STAR").2
      "R2" (by decide)⟩

/-- A write sequence containing a failing write aborts the transaction. -/
theorem runWrites_none_of_fail {α β γ : Type} (fails : WriteOp α β γ → Bool)
    (kh : α → String) (kt : β → String) (ko : γ → String) :
    ∀ (ops : List (WriteOp α β γ)) (db : TripleStore α β γ),
      (∃ op ∈ ops, fails op = true) → runWrites fails kh kt ko db ops = none := by
  intro ops
  induction ops with
  | nil =>
    rintro db ⟨op, hmem, _⟩
    exact absurd hmem (List.not_mem_nil op)
  | cons o rest ih =>
    rintro db ⟨op, hmem, hfail⟩
    rw [runWrites]
    by_cases ho : fails o = true
    · rw [if_pos ho]
    · rw [if_neg ho]
      apply ih
      rcases List.mem_cons.mp hmem with h1 | h1
      · exact absurd (h1 ▸ hfail) ho
      · exact ⟨op, h1, hfail⟩

/-- A write sequence with no failing write runs to completion, applying
every write in order. -/
theorem runWrites_all_ok {α β γ : Type} (fails : WriteOp α β γ → Bool)
    (kh : α → String) (kt : β → String) (ko : γ → String) :
    ∀ (ops : List (WriteOp α β γ)) (db : TripleStore α β γ),
      (∀ op ∈ ops, fails op = false) →
      runWrites fails kh kt ko db ops = some (ops.foldl (applyOp kh kt ko) db) := by
  intro ops
  induction ops with
  | nil => intro db _; rfl
  | cons o rest ih =>
    intro db hall
    rw [runWrites, List.foldl_cons]
    have ho := hall o (List.mem_cons_self o rest)
    rw [ho]
    simp only [Bool.false_eq_true, if_false]
    exact ih _ (fun op hop => hall op (List.mem_cons_of_mem o hop))

/-- Claim C4: a flush of the batch writer is one transaction: when any of
its writes fails the committed store is unchanged and the flush reports
failure, and when no write fails the commit applies exactly the whole
batch. -/
theorem claim4_transaction {α β γ : Type} (fails : WriteOp α β γ → Bool)
    (kh : α → String) (kt : β → String) (ko : γ → String)
    (db : TripleStore α β γ) (hb : List α) (tb : List β) (ob : List γ) :
    ((∃ op ∈ flushWrites hb tb ob, fails op = true) →
      batch_insert_data fails kh kt ko db hb tb ob = (db, false)) ∧
    ((∀ op ∈ flushWrites hb tb ob, fails op = false) →
      batch_insert_data fails kh kt ko db hb tb ob =
        ((flushWrites hb tb ob).foldl (applyOp kh kt ko) db, true)) := by
  constructor
  · intro hex
    unfold batch_insert_data
    rw [runWrites_none_of_fail fails kh kt ko _ db hex]
  · intro hall
    unfold batch_insert_data
    rw [runWrites_all_ok fails kh kt ko _ db hall]

/-- Witness for claim C4: a failing flush leaves the store unchanged and a
clean flush commits the batch. -/
theorem claim4_witness :
    (∃ op ∈ flushWrites (α := String) (β := String) (γ := String) ["h1"] ["t1"] [],
      (fun _ => true : WriteOp String String String → Bool) op = true) ∧
    batch_insert_data (fun _ => true) (fun s => s) (fun s => s) (fun s => s)
      ⟨["h0"], [], []⟩ ["h1"] ["t1"] [] = (⟨["h0"], [], []⟩, false) ∧
    batch_insert_data (fun _ => false) (fun s => s) (fun s => s) (fun s => s)
      ⟨[], [], []⟩ ["h1"] [] [] = (⟨["h1"], [], []⟩, true) := by
  have hex : ∃ op ∈ flushWrites (α := String) (β := String) (γ := String) ["h1"] ["t1"] [],
      (fun _ => true : WriteOp String String String → Bool) op = true :=
    ⟨WriteOp.horse "h1", by simp [flushWrites], rfl⟩
  refine ⟨hex, ?_, ?_⟩
  · exact (claim4_transaction (fun _ => true) (fun s => s) (fun s => s) (fun s => s)
      ⟨["h0"], [], []⟩ ["h1"] ["t1"] []).1 hex
  · have hall : ∀ op ∈ flushWrites (α := String) (β := String) (γ := String) ["h1"] [] [],
        (fun _ => false : WriteOp String String String → Bool) op = false :=
      fun _ _ => rfl
    have h2 := (claim4_transaction (fun _ => false) (fun s => s) (fun s => s) (fun s => s)
      ⟨[], [], []⟩ ["h1"] [] []).2 hall
    rw [h2]
    rfl

end Racing
